import Mathlib

set_option maxRecDepth 8192

/-!
Verification development for the k8s_cache response-cache plugin.

The development shallowly embeds the cache engine: wall-clock times and
durations are modelled as integers counting whole seconds, DNS record
sections are opaque lists, and the two LRU stores are modelled as partial
maps from cache keys to items (capacity/LRU eviction is irrelevant to the
properties below).  Functions present in the repository (`getEarly`,
`getLate`, `copyToLate`, `NeedEarlyRefresh`, `getEarlyRefreshIPs`, `New`)
are translated directly from the source; backend helpers that the source
calls but whose code is not part of the repository snapshot (`hash`,
`item.ttl`, `item.matches`, `computeTTL`, the insertion path with its
exception lists) are modelled from the specification and marked as such.
-/

namespace K8sCache

/-- Rcode constant for a successful answer (dns.RcodeSuccess). -/
def rcodeSuccess : Nat := 0

/-- Rcode constant for a name error / NXDOMAIN (dns.RcodeNameError). -/
def rcodeNameError : Nat := 3

/-- A cached item, the unit of storage.  Record sections are opaque
strings; `stored` is the wall-clock second the item was stored and
`origTTL` the original TTL (a uint32 in the source, hence a `Nat` that
the writers keep below `2 ^ 32`). -/
structure Item where
  name : String
  qtype : Nat
  rcode : Nat
  authenticatedData : Bool
  recursionAvailable : Bool
  answer : List String
  ns : List String
  extra : List String
  wildcard : String
  origTTL : Nat
  stored : Int
deriving DecidableEq, Repr

/-- Modelled from the spec: the freshness computation of the backend item
(`item.ttl`), which is not under src/.  Remaining lifetime is the original
TTL minus the whole seconds elapsed since the item was stored; it is
negative once the item is expired. -/
def Item.ttl (i : Item) (now : Int) : Int :=
  (i.origTTL : Int) - (now - i.stored)

/-- Modelled from the spec: the opaque fixed-width cache-key fingerprint,
computed from exactly the case-normalized query name, the query type, the
DO bit and the CD bit.  The spec states the derivation is pure,
deterministic and collision-free in those four fields, so the fingerprint
is modelled as the four-tuple itself. -/
structure CacheKey where
  qname : String
  qtype : Nat
  dobit : Bool
  cd : Bool
deriving DecidableEq, Repr

/-- Modelled from the spec: the key-derivation function `hash`, which is
not under src/.  It packs the four participating fields into the
fingerprint. -/
def hash (qname : String) (qtype : Nat) (dobit : Bool) (cd : Bool) : CacheKey :=
  ⟨qname, qtype, dobit, cd⟩

/-- The per-query request state (request.Request).  Besides the four
fields that participate in the cache key it carries the header bits that
must NOT participate (authoritative answer `aa`, authenticated data `ad`,
recursion available `ra`) and the source IP used by the early-refresh
check. -/
structure Req where
  qname : String
  qtype : Nat
  dobit : Bool
  cd : Bool
  aa : Bool
  ad : Bool
  ra : Bool
  ip : String
deriving DecidableEq, Repr

/-- Lower-case an ASCII character. -/
def lowerChar (ch : Char) : Char :=
  if 65 ≤ ch.toNat ∧ ch.toNat ≤ 90 then Char.ofNat (ch.toNat + 32) else ch

/-- Lower-case a string character by character (the case normalization of
DNS names, which are ASCII). -/
def lowerStr (x : String) : String :=
  ⟨x.data.map lowerChar⟩

/-- Modelled from the spec: `state.Name()` of the request package returns
the query name case-normalized to lower case. -/
def reqName (s : Req) : String :=
  lowerStr s.qname

/-- The cache key a request hashes to. -/
def reqKey (s : Req) : CacheKey :=
  hash (reqName s) s.qtype s.dobit s.cd

/-- Modelled from the spec: the backend's `item.matches(state)` check
(not under src/): the stored item must answer the same case-normalized
name and the same query type as the request. -/
def matchesItem (i : Item) (s : Req) : Bool :=
  s.qtype == i.qtype && reqName s == lowerStr i.name

/-- An item store: a partial map from cache keys to items.  The bounded
LRU behaviour of the source store is irrelevant to the claims below. -/
def Store := CacheKey → Option Item

/-- The empty store. -/
def Store.empty : Store := fun _ => none

/-- Point update, the effect of `store.Add(key, item)`. -/
def Store.add (st : Store) (k : CacheKey) (i : Item) : Store :=
  fun k2 => if k2 = k then some i else st k2

/-- An entry of the Kubernetes client cache store: either a pod carrying
its list of pod IPs, or a value of some other (unexpected) type. -/
inductive K8sItem where
  | pod (ips : List String)
  | other
deriving DecidableEq, Repr

/-- The pod IPs contributed by one store entry. -/
def K8sItem.ips : K8sItem → List String
  | .pod l => l
  | .other => []

/-- The cache engine state: early positive store `pcache`, negative store
`ncache`, late positive store `latepcache`, the serve-stale window
`staleUpTo` and the late-tier TTL bonus `extrattl` (both in whole
seconds), and the snapshot of the Kubernetes pod store consulted by the
early-refresh check. -/
structure Cache where
  pcache : Store
  ncache : Store
  latepcache : Store
  staleUpTo : Int
  extrattl : Int
  k8sStore : List K8sItem

/-- New() constructs the cache with all stores empty and zero-valued
configuration. -/
def New : Cache :=
  { pcache := Store.empty
    ncache := Store.empty
    latepcache := Store.empty
    staleUpTo := 0
    extrattl := 0
    k8sStore := [] }

/-- Modelled from the spec: `computeTTL(msgTTL, minTTL, maxTTL)`, not
under src/ (only its test table is).  The message TTL is raised to the
floor and then lowered to the ceiling. -/
def computeTTL (msgTTL minTTL maxTTL : Int) : Int :=
  let ttl1 := if msgTTL < minTTL then minTTL else msgTTL
  let ttl2 := if ttl1 > maxTTL then maxTTL else ttl1
  ttl2

/-- The clamp function named by the claim: `clamp(msgTTL, minTTL,
maxTTL)` as lower-bound-then-upper-bound. -/
def clampTTL (msgTTL minTTL maxTTL : Int) : Int :=
  min (max msgTTL minTTL) maxTTL

/-- Get cache item from c.ncache or c.pcache (the early cache).  Direct
translation of the source `getEarly`: the negative store is probed first
and its item is returned when it matches and is fresh or
stale-within-window; otherwise the positive store is probed and its item
is returned only when it matches and is strictly fresh.  Metrics calls
are side effects outside the model. -/
def getEarly (c : Cache) (now : Int) (s : Req) : Option Item :=
  let k := hash (reqName s) s.qtype s.dobit s.cd
  let neg : Option Item := (c.ncache k).bind fun itm =>
    if matchesItem itm s ∧
        (itm.ttl now > 0 ∨ (c.staleUpTo > 0 ∧ -(itm.ttl now) < c.staleUpTo)) then
      some itm
    else none
  match neg with
  | some itm => some itm
  | none =>
      (c.pcache k).bind fun itm =>
        if matchesItem itm s ∧ itm.ttl now > 0 then some itm else none

/-- Direct translation of the source `getLate`: probe the late positive
store with the staleness window reduced by the TTL bonus. -/
def getLate (c : Cache) (now : Int) (s : Req) : Option Item :=
  let k := hash (reqName s) s.qtype s.dobit s.cd
  match c.latepcache k with
  | some itm =>
      let staleupto := c.staleUpTo - c.extrattl
      if matchesItem itm s ∧
          (itm.ttl now > 0 ∨ (staleupto > 0 ∧ -(itm.ttl now) < staleupto)) then
        some itm
      else none
  | none => none

/-- Direct translation of the source `copyToLate`: copy item i to
c.latepcache if the conditions are right.  Only successful answers are
copied; an existing still-fresh late entry suppresses the write; the
written item is a struct copy of the source with `origTTL` incremented by
the bonus seconds (uint32 addition, hence the modulus). -/
def copyToLate (c : Cache) (k : CacheKey) (i : Item) (now : Int) : Cache :=
  if i.rcode = rcodeSuccess then
    let add : Bool :=
      match c.latepcache k with
      | some li => decide (li.ttl now ≤ 0)
      | none => true
    if add then
      let newi : Item := { i with origTTL := (i.origTTL + c.extrattl.toNat) % 2 ^ 32 }
      { c with latepcache := c.latepcache.add k newi }
    else c
  else c

/-- Direct translation of the loop body of the source
`getEarlyRefreshIPs`: accumulate the pod IPs of every listed pod, but
return nil as soon as a store entry is not a *v1.Pod. -/
def getEarlyRefreshIPsAux : List String → List K8sItem → List String
  | acc, [] => acc
  | acc, .pod ips :: rest => getEarlyRefreshIPsAux (acc ++ ips) rest
  | _, .other :: _ => []

/-- Get all IP addresses of all pods selected by the reflector store,
i.e. those who should receive early cache refreshes. -/
def getEarlyRefreshIPs (store : List K8sItem) : List String :=
  getEarlyRefreshIPsAux [] store

/-- Direct translation of the source `NeedEarlyRefresh`: the request's
source IP is compared against every early-refresh IP. -/
def NeedEarlyRefresh (c : Cache) (s : Req) : Bool :=
  let earlyips := getEarlyRefreshIPs c.k8sStore
  earlyips.any (fun ip => ip == s.ip)

/-- Polarity of a cacheable classification: a positive (successful)
answer bound for pcache, or a negative (name-error/no-data/server-error)
answer bound for ncache. -/
inductive Classification where
  | positive
  | negative
deriving DecidableEq

/-- Modelled from the spec: the zone-list match used by the exception
lists — the query name matches a listed zone when it equals the zone or
lies inside it. -/
def zonesMatch (zones : List String) (name : String) : Bool :=
  zones.any (fun z => z == name || name.endsWith ("." ++ z))

/-- Modelled from the spec: the store step of the insertion path (the
ResponseWriter.set code is not under src/).  A positive answer is stored
into pcache unless the name matches the positive-exception list; a
negative answer is stored into ncache unless the name matches the
negative-exception list; each list suppresses only its own polarity. -/
def set (pexcept nexcept : List String) (cl : Classification) (name : String)
    (k : CacheKey) (it : Item) (c : Cache) : Cache :=
  match cl with
  | .positive =>
      if zonesMatch pexcept name then c
      else { c with pcache := c.pcache.add k it }
  | .negative =>
      if zonesMatch nexcept name then c
      else { c with ncache := c.ncache.add k it }

/-- Concrete request for cached.org. A-records, all header bits clear. -/
def reqEx : Req :=
  { qname := "cached.org.", qtype := 1, dobit := false, cd := false,
    aa := false, ad := false, ra := false, ip := "10.0.0.9" }

/-- The cache key of `reqEx`. -/
def keyEx : CacheKey :=
  hash "cached.org." 1 false false

/-- Concrete negative item (NXDOMAIN) for cached.org., stored at second 0
with a 60 second TTL: stale but within a 300 second window at second
100. -/
def itemNegEx : Item :=
  { name := "cached.org.", qtype := 1, rcode := rcodeNameError,
    authenticatedData := false, recursionAvailable := true,
    answer := [], ns := ["example.org. SOA"], extra := [],
    wildcard := "", origTTL := 60, stored := 0 }

/-- Concrete positive item for cached.org., stored at second 0 with a 200
second TTL: still fresh at second 100. -/
def itemPosEx : Item :=
  { name := "cached.org.", qtype := 1, rcode := rcodeSuccess,
    authenticatedData := false, recursionAvailable := true,
    answer := ["cached.org. A 127.0.0.53"], ns := [], extra := [],
    wildcard := "", origTTL := 200, stored := 0 }

/-- Concrete cache holding the stale negative item and the fresh positive
item under the same key, with a 300 second staleness window. -/
def cacheMaskEx : Cache :=
  { pcache := Store.empty.add keyEx itemPosEx
    ncache := Store.empty.add keyEx itemNegEx
    latepcache := Store.empty
    staleUpTo := 300
    extrattl := 0
    k8sStore := [] }

/-- Concrete cache with an empty late tier and a 7 second late-tier TTL
bonus. -/
def cacheLateEx : Cache :=
  { New with extrattl := 7 }

/-- The item `copyToLate` writes when copying `itemPosEx` into
`cacheLateEx`: the source item with the 7 second bonus added to its
original TTL and every other field unchanged. -/
def itemLateWrittenEx : Item :=
  { itemPosEx with origTTL := 207 }

/-- Concrete positive-exception list used by the repository's tests. -/
def pexEx : List String := ["pos-disabled.example.org."]

/-- Concrete negative-exception list used by the repository's tests. -/
def nexEx : List String := ["neg-disabled.example.org."]

/-- Concrete Kubernetes store containing a malformed (non-pod) entry
between two pods. -/
def storeBadEx : List K8sItem :=
  [K8sItem.pod ["10.0.0.1"], K8sItem.other, K8sItem.pod ["10.0.0.2"]]

/-- Concrete well-formed Kubernetes store of two pods. -/
def storeGoodEx : List K8sItem :=
  [K8sItem.pod ["10.0.0.1"], K8sItem.pod ["10.0.0.2", "10.0.0.3"]]

/-- A cache reached from `New` by one `copyToLate` step. -/
def cacheReachEx : Cache :=
  copyToLate New keyEx itemPosEx 5

/-- Cache states reachable from an empty late tier (as created by `New`)
when `copyToLate` is the only writer of the late positive store (the
primary-store writer `set` is also allowed; it never touches the late
tier). -/
inductive LateReach : Cache → Prop
  | base (c : Cache) : c.latepcache = Store.empty → LateReach c
  | stepCopy (c : Cache) (k : CacheKey) (i : Item) (now : Int) :
      LateReach c → LateReach (copyToLate c k i now)
  | stepSet (c : Cache) (pexcept nexcept : List String) (cl : Classification)
      (name : String) (k : CacheKey) (it : Item) :
      LateReach c → LateReach (set pexcept nexcept cl name k it c)

/-! ## Helper lemmas -/

/-- Unfolding lemma: when the source item is successful and no still-fresh
late entry exists, `copyToLate` replaces the late store by a point update
with the bonus added to the original TTL. -/
theorem copyToLate_write_eq (c : Cache) (k : CacheKey) (i : Item) (now : Int)
    (hrc : i.rcode = rcodeSuccess)
    (hstale : ∀ li, c.latepcache k = some li → li.ttl now ≤ 0) :
    copyToLate c k i now =
      { c with latepcache :=
          c.latepcache.add k { i with origTTL := (i.origTTL + c.extrattl.toNat) % 2 ^ 32 } } := by
  unfold copyToLate
  rw [if_pos hrc]
  cases hl : c.latepcache k with
  | none => simp
  | some li =>
      have hle : li.ttl now ≤ 0 := hstale li hl
      simp [decide_eq_true hle]

/-- Unfolding lemma: a still-fresh late entry for the key makes
`copyToLate` a no-op. -/
theorem copyToLate_noop_of_fresh (c : Cache) (k : CacheKey) (i : Item) (now : Int)
    (li : Item) (hl : c.latepcache k = some li) (hfresh : li.ttl now > 0) :
    copyToLate c k i now = c := by
  unfold copyToLate
  split
  · rw [hl]
    have : ¬ li.ttl now ≤ 0 := by omega
    simp [decide_eq_false this]
  · rfl

/-- Case analysis on the late store after a `copyToLate` step: each entry
is either an old entry or a copy of the (necessarily successful) source
item with only its original TTL changed. -/
theorem copyToLate_latepcache_cases (c : Cache) (k : CacheKey) (i : Item) (now : Int)
    (k2 : CacheKey) (j : Item) (h : (copyToLate c k i now).latepcache k2 = some j) :
    c.latepcache k2 = some j ∨ (i.rcode = rcodeSuccess ∧ j.rcode = i.rcode) := by
  unfold copyToLate at h
  by_cases hrc : i.rcode = rcodeSuccess
  · rw [if_pos hrc] at h
    set addb := (match c.latepcache k with
      | some li => decide (li.ttl now ≤ 0)
      | none => true) with haddb
    cases hb : addb with
    | false => rw [hb] at h; simp at h; exact Or.inl h
    | true =>
        rw [hb] at h
        simp [Store.add] at h
        by_cases hk : k2 = k
        · rw [if_pos hk] at h
          refine Or.inr ⟨hrc, ?_⟩
          cases h
          rfl
        · rw [if_neg hk] at h
          exact Or.inl h
  · rw [if_neg hrc] at h
    exact Or.inl h

/-- The primary-store insertion never touches the late positive store. -/
theorem set_latepcache (pexcept nexcept : List String) (cl : Classification)
    (name : String) (k : CacheKey) (it : Item) (c : Cache) :
    (set pexcept nexcept cl name k it c).latepcache = c.latepcache := by
  cases cl <;> simp [set] <;> split <;> rfl

/-- The early-refresh IP accumulator returns nil whenever a non-pod entry
occurs in the remaining list. -/
theorem getEarlyRefreshIPsAux_of_bad (acc : List String) (l : List K8sItem)
    (h : K8sItem.other ∈ l) : getEarlyRefreshIPsAux acc l = [] := by
  induction l generalizing acc with
  | nil => simp at h
  | cons x rest ih =>
      cases x with
      | pod ips =>
          have hr : K8sItem.other ∈ rest := by
            rcases List.mem_cons.mp h with h1 | h2
            · exact absurd h1 (by simp)
            · exact h2
          simpa [getEarlyRefreshIPsAux] using ih (acc ++ ips) hr
      | other => rfl

/-- The early-refresh IP accumulator flattens every pod's IPs when no
non-pod entry occurs. -/
theorem getEarlyRefreshIPsAux_of_good (acc : List String) (l : List K8sItem)
    (h : K8sItem.other ∉ l) :
    getEarlyRefreshIPsAux acc l = acc ++ (l.map K8sItem.ips).flatten := by
  induction l generalizing acc with
  | nil => simp [getEarlyRefreshIPsAux]
  | cons x rest ih =>
      cases x with
      | pod ips =>
          have hr : K8sItem.other ∉ rest := fun hm => h (List.mem_cons_of_mem _ hm)
          simp [getEarlyRefreshIPsAux, ih (acc ++ ips) hr, K8sItem.ips, List.append_assoc]
      | other => exact absurd (List.mem_cons_self _ _) h

/-! ## Claim theorems -/

/-- C5: computeTTL(msgTTL, minTTL, maxTTL) equals clamp(msgTTL, minTTL,
maxTTL); in particular computeTTL(1800s, 300s, 3600s) = 1800s,
computeTTL(299s, 300s, 3600s) = 300s, computeTTL(299s, 0s, 3600s) = 299s,
and computeTTL(3601s, 300s, 3600s) = 3600s. -/
theorem computeTTL_eq_clamp :
    (∀ msgTTL minTTL maxTTL : Int,
      computeTTL msgTTL minTTL maxTTL = clampTTL msgTTL minTTL maxTTL) ∧
    computeTTL 1800 300 3600 = 1800 ∧
    computeTTL 299 300 3600 = 300 ∧
    computeTTL 299 0 3600 = 299 ∧
    computeTTL 3601 300 3600 = 3600 := by
  refine ⟨?_, by decide, by decide, by decide, by decide⟩
  intro m lo hi
  simp only [computeTTL, clampTTL]
  rcases le_total m lo with h1 | h1 <;> rcases le_total m hi with h2 | h2 <;>
    rcases le_total lo hi with h3 | h3 <;>
    simp [min_def, max_def] <;> split_ifs <;> omega

/-- C7: NeedEarlyRefresh(state) returns true if and only if the request's
source IP equals one of the strings returned by the early-refresh
identity source getEarlyRefreshIPs. -/
theorem NeedEarlyRefresh_iff (c : Cache) (s : Req) :
    NeedEarlyRefresh c s = true ↔ s.ip ∈ getEarlyRefreshIPs c.k8sStore := by
  simp only [NeedEarlyRefresh, List.any_eq_true, beq_iff_eq]
  constructor
  · rintro ⟨ip, hmem, rfl⟩; exact hmem
  · intro hmem; exact ⟨s.ip, hmem, rfl⟩

/-- C10: if any element of the Kubernetes pod store's list is not a pod,
getEarlyRefreshIPs returns nil — the whole early-refresh identity set
becomes empty rather than skipping the malformed element; otherwise it
returns every pod IP of every listed pod. -/
theorem getEarlyRefreshIPs_all_or_nothing (store : List K8sItem) :
    (K8sItem.other ∈ store → getEarlyRefreshIPs store = []) ∧
    (K8sItem.other ∉ store →
      getEarlyRefreshIPs store = (store.map K8sItem.ips).flatten) := by
  constructor
  · intro h; exact getEarlyRefreshIPsAux_of_bad [] store h
  · intro h; simpa using getEarlyRefreshIPsAux_of_good [] store h

/-- C10 witness: on a store with a malformed entry between two pods the
result is empty; on a well-formed two-pod store every pod IP is
returned. -/
theorem getEarlyRefreshIPs_all_or_nothing_witness :
    K8sItem.other ∈ storeBadEx ∧ getEarlyRefreshIPs storeBadEx = [] ∧
    K8sItem.other ∉ storeGoodEx ∧
    getEarlyRefreshIPs storeGoodEx = (storeGoodEx.map K8sItem.ips).flatten :=
  ⟨by decide, (getEarlyRefreshIPs_all_or_nothing storeBadEx).1 (by decide),
    by decide, (getEarlyRefreshIPs_all_or_nothing storeGoodEx).2 (by decide)⟩

/-- C6: the positive and negative exception lists act independently: a
name matching the negative-exception list has its negative results never
stored while its positive results are stored normally, and symmetrically
for the positive-exception list. -/
theorem exception_lists_independent (pexcept nexcept : List String) (name : String)
    (k : CacheKey) (it : Item) (c : Cache) :
    (zonesMatch nexcept name = true →
      set pexcept nexcept Classification.negative name k it c = c) ∧
    (zonesMatch pexcept name = false →
      (set pexcept nexcept Classification.positive name k it c).pcache = c.pcache.add k it ∧
      (set pexcept nexcept Classification.positive name k it c).ncache = c.ncache) ∧
    (zonesMatch pexcept name = true →
      set pexcept nexcept Classification.positive name k it c = c) ∧
    (zonesMatch nexcept name = false →
      (set pexcept nexcept Classification.negative name k it c).ncache = c.ncache.add k it ∧
      (set pexcept nexcept Classification.negative name k it c).pcache = c.pcache) := by
  refine ⟨fun h => ?_, fun h => ?_, fun h => ?_, fun h => ?_⟩ <;>
    simp [set, h]

/-- C6 witness: with the test configuration's lists, a name-error for
neg-disabled.example.org. is not stored while a positive answer for the
same name is stored into pcache. -/
theorem exception_lists_independent_witness :
    zonesMatch nexEx "neg-disabled.example.org." = true ∧
    set pexEx nexEx Classification.negative "neg-disabled.example.org." keyEx itemNegEx New = New ∧
    zonesMatch pexEx "neg-disabled.example.org." = false ∧
    (set pexEx nexEx Classification.positive "neg-disabled.example.org." keyEx itemPosEx New).pcache =
      New.pcache.add keyEx itemPosEx :=
  ⟨by decide,
    (exception_lists_independent pexEx nexEx "neg-disabled.example.org." keyEx itemNegEx New).1
      (by decide),
    by decide,
    ((exception_lists_independent pexEx nexEx "neg-disabled.example.org." keyEx itemPosEx New).2.1
      (by decide)).1⟩

/-- C9: every item ever present in the late positive cache is a
successful answer: starting from an empty late tier (as created by New)
and with copyToLate as the only late-tier writer, every stored item has
Rcode = RcodeSuccess. -/
theorem latepcache_only_success :
    LateReach New ∧
    ∀ c, LateReach c → ∀ k i, c.latepcache k = some i → i.rcode = rcodeSuccess := by
  refine ⟨LateReach.base New rfl, ?_⟩
  intro c h
  induction h with
  | base c hempty =>
      intro k i hi
      rw [hempty] at hi
      simp [Store.empty] at hi
  | stepCopy c k0 i0 now0 _ ih =>
      intro k i hi
      rcases copyToLate_latepcache_cases c k0 i0 now0 k i hi with h1 | ⟨hrc, hcopy⟩
      · exact ih k i h1
      · rw [hcopy, hrc]
  | stepSet c pexcept nexcept cl name k0 it _ ih =>
      intro k i hi
      rw [set_latepcache] at hi
      exact ih k i hi

/-- C9 witness: the cache reached from New by copying the concrete
successful item indeed stores it, and the invariant yields its Rcode. -/
theorem latepcache_only_success_witness :
    cacheReachEx.latepcache keyEx = some itemPosEx ∧
    itemPosEx.rcode = rcodeSuccess :=
  ⟨by decide,
    latepcache_only_success.2 cacheReachEx
      (LateReach.stepCopy New keyEx itemPosEx 5 (LateReach.base New rfl))
      keyEx itemPosEx (by decide)⟩

/-- C2 counterexample: copyToLate does not refresh the stored-at
timestamp.  Copying the source item (stored at second 0) at second 5
writes an entry whose stored-at time is still 0, not the write time 5 —
the written entry does not carry a fresh stored-at timestamp. -/
theorem copyToLate_timestamp_counterexample :
    (copyToLate cacheLateEx keyEx itemPosEx 5).latepcache keyEx = some itemLateWrittenEx ∧
    itemPosEx.stored = 0 ∧
    itemLateWrittenEx.stored = 0 ∧
    itemLateWrittenEx.stored ≠ 5 := by decide

/-- C2 (amended): copyToLate writes into the late tier only when no
existing late-tier entry for the key is still fresh (it is a no-op when
an entry with ttl(now) > 0 exists — skip-if-fresh, not overwrite-always),
and when it does write, the stored entry carries the source item's data
with origTTL increased by the configured bonus (uint32 addition of the
extrattl seconds) while keeping the source item's stored-at timestamp
(the timestamp is not refreshed). -/
theorem copyToLate_skip_if_fresh (c : Cache) (k : CacheKey) (i : Item) (now : Int) :
    (∀ li, c.latepcache k = some li → li.ttl now > 0 → copyToLate c k i now = c) ∧
    (i.rcode = rcodeSuccess →
      (∀ li, c.latepcache k = some li → li.ttl now ≤ 0) →
      (copyToLate c k i now).latepcache =
        c.latepcache.add k { i with origTTL := (i.origTTL + c.extrattl.toNat) % 2 ^ 32 }) := by
  constructor
  · intro li hl hfresh
    exact copyToLate_noop_of_fresh c k i now li hl hfresh
  · intro hrc hstale
    rw [copyToLate_write_eq c k i now hrc hstale]

/-- C2 witness: with the empty late tier of the concrete cache, copying
the successful item replaces the late store by the point update carrying
the 7 second bonus. -/
theorem copyToLate_skip_if_fresh_witness :
    itemPosEx.rcode = rcodeSuccess ∧
    (copyToLate cacheLateEx keyEx itemPosEx 5).latepcache =
      cacheLateEx.latepcache.add keyEx
        { itemPosEx with origTTL := (itemPosEx.origTTL + cacheLateEx.extrattl.toNat) % 2 ^ 32 } :=
  ⟨rfl,
    (copyToLate_skip_if_fresh cacheLateEx keyEx itemPosEx 5).2 rfl
      (fun li h => by simp [cacheLateEx, New, Store.empty] at h)⟩

/-- C8: whenever copyToLate writes, the written entry is a copy of the
source item in which only origTTL differs — it becomes the source TTL
plus the bonus seconds (uint32 addition, exactly the sum whenever it does
not exceed 2^32) — while every other field, including the stored-at time,
the record sections, header flags and classification, is unchanged; the
other stores and the other late-tier keys are untouched (and the model is
pure, so the source item itself is unchanged). -/
theorem copyToLate_frame (c : Cache) (k : CacheKey) (i : Item) (now : Int)
    (hrc : i.rcode = rcodeSuccess)
    (hstale : ∀ li, c.latepcache k = some li → li.ttl now ≤ 0) :
    (∀ j, (copyToLate c k i now).latepcache k = some j →
      j.name = i.name ∧ j.qtype = i.qtype ∧ j.rcode = i.rcode ∧
      j.authenticatedData = i.authenticatedData ∧
      j.recursionAvailable = i.recursionAvailable ∧
      j.answer = i.answer ∧ j.ns = i.ns ∧ j.extra = i.extra ∧
      j.wildcard = i.wildcard ∧ j.stored = i.stored ∧
      j.origTTL = (i.origTTL + c.extrattl.toNat) % 2 ^ 32 ∧
      (i.origTTL + c.extrattl.toNat < 2 ^ 32 →
        j.origTTL = i.origTTL + c.extrattl.toNat)) ∧
    (copyToLate c k i now).pcache = c.pcache ∧
    (copyToLate c k i now).ncache = c.ncache ∧
    (∀ k2, k2 ≠ k → (copyToLate c k i now).latepcache k2 = c.latepcache k2) := by
  rw [copyToLate_write_eq c k i now hrc hstale]
  refine ⟨?_, rfl, rfl, ?_⟩
  · intro j hj
    simp [Store.add] at hj
    subst hj
    refine ⟨rfl, rfl, rfl, rfl, rfl, rfl, rfl, rfl, rfl, rfl, rfl, ?_⟩
    intro hlt
    exact Nat.mod_eq_of_lt hlt
  · intro k2 hk2
    simp [Store.add, hk2]

/-- C8 witness: copying the concrete successful item into the empty late
tier writes the item that differs from the source only in origTTL (207 =
200 + 7), with the stored-at time and the answer section unchanged. -/
theorem copyToLate_frame_witness :
    itemPosEx.rcode = rcodeSuccess ∧
    (copyToLate cacheLateEx keyEx itemPosEx 5).latepcache keyEx = some itemLateWrittenEx ∧
    itemLateWrittenEx.stored = itemPosEx.stored ∧
    itemLateWrittenEx.answer = itemPosEx.answer ∧
    itemLateWrittenEx.origTTL = itemPosEx.origTTL + cacheLateEx.extrattl.toNat :=
  ⟨rfl, by decide,
    ((copyToLate_frame cacheLateEx keyEx itemPosEx 5 rfl
        (fun li h => by simp [cacheLateEx, New, Store.empty] at h)).1
      itemLateWrittenEx (by decide)).2.2.2.2.2.2.2.2.2.1,
    ((copyToLate_frame cacheLateEx keyEx itemPosEx 5 rfl
        (fun li h => by simp [cacheLateEx, New, Store.empty] at h)).1
      itemLateWrittenEx (by decide)).2.2.2.2.2.1,
    ((copyToLate_frame cacheLateEx keyEx itemPosEx 5 rfl
        (fun li h => by simp [cacheLateEx, New, Store.empty] at h)).1
      itemLateWrittenEx (by decide)).2.2.2.2.2.2.2.2.2.2.2 (by decide)⟩

/-- C3: getLate returns a matching stored item if and only if its
remaining TTL is positive, or the staleness window reduced by the bonus
(staleUpTo - extrattl) is positive and the item's age past expiry is less
than that reduced window; otherwise it returns nil. -/
theorem getLate_iff (c : Cache) (now : Int) (s : Req) (it : Item) :
    getLate c now s = some it ↔
      (c.latepcache (reqKey s) = some it ∧ matchesItem it s ∧
        (it.ttl now > 0 ∨
          (c.staleUpTo - c.extrattl > 0 ∧
            -(it.ttl now) < c.staleUpTo - c.extrattl))) := by
  have hgl : getLate c now s =
      (match c.latepcache (reqKey s) with
       | some itm =>
          if matchesItem itm s ∧
              (itm.ttl now > 0 ∨
                (c.staleUpTo - c.extrattl > 0 ∧
                  -(itm.ttl now) < c.staleUpTo - c.extrattl)) then
            some itm
          else none
       | none => none) := rfl
  rw [hgl]
  cases hl : c.latepcache (reqKey s) with
  | none => simp
  | some itm =>
      have hred : (match (some itm : Option Item) with
          | some itm2 =>
              if matchesItem itm2 s ∧
                  (itm2.ttl now > 0 ∨
                    (c.staleUpTo - c.extrattl > 0 ∧
                      -(itm2.ttl now) < c.staleUpTo - c.extrattl)) then
                some itm2
              else none
          | none => none) =
          (if matchesItem itm s ∧
              (itm.ttl now > 0 ∨
                (c.staleUpTo - c.extrattl > 0 ∧
                  -(itm.ttl now) < c.staleUpTo - c.extrattl)) then
            some itm
          else none) := rfl
      rw [hred]
      by_cases hc : (matchesItem itm s ∧
          (itm.ttl now > 0 ∨
            (c.staleUpTo - c.extrattl > 0 ∧ -(itm.ttl now) < c.staleUpTo - c.extrattl)))
      · rw [if_pos hc]
        constructor
        · intro h
          have h2 : itm = it := by simpa using h
          subst h2
          exact ⟨rfl, hc.1, hc.2⟩
        · rintro ⟨h1, -, -⟩
          exact h1
      · rw [if_neg hc]
        constructor
        · intro h
          exact absurd h (by simp)
        · rintro ⟨h1, h2, h3⟩
          have h4 : itm = it := by simpa using h1
          subst h4
          exact absurd ⟨h2, h3⟩ hc

/-- Unfolding lemma for `getEarly` with the key written as `reqKey`. -/
theorem getEarly_unfold (c : Cache) (now : Int) (s : Req) :
    getEarly c now s =
      (match (c.ncache (reqKey s)).bind (fun itm =>
          if matchesItem itm s ∧
              (itm.ttl now > 0 ∨ (c.staleUpTo > 0 ∧ -(itm.ttl now) < c.staleUpTo)) then
            some itm
          else none) with
       | some itm => some itm
       | none =>
           (c.pcache (reqKey s)).bind fun itm =>
             if matchesItem itm s ∧ itm.ttl now > 0 then some itm else none) := rfl

/-- Characterization of the positive-store probe inside `getEarly`. -/
theorem pcache_probe_spec (c : Cache) (now : Int) (s : Req) (it : Item)
    (h : (c.pcache (reqKey s)).bind (fun itm =>
        if matchesItem itm s ∧ itm.ttl now > 0 then some itm else none) = some it) :
    c.pcache (reqKey s) = some it ∧ matchesItem it s ∧ it.ttl now > 0 := by
  cases hp : c.pcache (reqKey s) with
  | none => rw [hp] at h; simp at h
  | some pi =>
      rw [hp] at h
      simp only [Option.some_bind] at h
      by_cases hcp : (matchesItem pi s ∧ pi.ttl now > 0)
      · rw [if_pos hcp] at h
        have h2 : pi = it := by simpa using h
        subst h2
        exact ⟨rfl, hcp.1, hcp.2⟩
      · rw [if_neg hcp] at h
        simp at h

/-- C1 counterexample: at second 100 the stale-but-within-window NXDOMAIN
item in the negative store wins over the fresh positive item stored under
the same key, so getEarly returns the stale negative item and not the
fresh positive one. -/
theorem getEarly_counterexample :
    cacheMaskEx.ncache (reqKey reqEx) = some itemNegEx ∧
    cacheMaskEx.pcache (reqKey reqEx) = some itemPosEx ∧
    itemNegEx.ttl 100 ≤ 0 ∧
    -(itemNegEx.ttl 100) < cacheMaskEx.staleUpTo ∧
    itemPosEx.ttl 100 > 0 ∧
    getEarly cacheMaskEx 100 reqEx = some itemNegEx ∧
    getEarly cacheMaskEx 100 reqEx ≠ some itemPosEx := by decide

/-- C1 (amended): getEarly probes the negative store first and a matching
negative item that is fresh or stale-within-window always wins, even when
the positive store holds a fresh matching item under the same key; the
positive store is consulted only when the negative probe fails, and a
positive item is returned only when it matches and is strictly fresh —
stale positive items are never returned, and no less-stale comparison
between the two stores takes place. -/
theorem getEarly_negative_first (c : Cache) (now : Int) (s : Req) :
    (∀ ni, c.ncache (reqKey s) = some ni → matchesItem ni s →
      (ni.ttl now > 0 ∨ (c.staleUpTo > 0 ∧ -(ni.ttl now) < c.staleUpTo)) →
      getEarly c now s = some ni) ∧
    (∀ it, getEarly c now s = some it →
      (c.ncache (reqKey s) = some it ∧ matchesItem it s ∧
        (it.ttl now > 0 ∨ (c.staleUpTo > 0 ∧ -(it.ttl now) < c.staleUpTo))) ∨
      (c.pcache (reqKey s) = some it ∧ matchesItem it s ∧ it.ttl now > 0)) := by
  constructor
  · intro ni hn hm hcond
    rw [getEarly_unfold, hn]
    simp only [Option.some_bind]
    rw [if_pos ⟨hm, hcond⟩]
  · intro it h
    rw [getEarly_unfold] at h
    cases hn : c.ncache (reqKey s) with
    | none =>
        rw [hn] at h
        simp only [Option.none_bind] at h
        exact Or.inr (pcache_probe_spec c now s it h)
    | some ni =>
        rw [hn] at h
        simp only [Option.some_bind] at h
        by_cases hcn : (matchesItem ni s ∧
            (ni.ttl now > 0 ∨ (c.staleUpTo > 0 ∧ -(ni.ttl now) < c.staleUpTo)))
        · rw [if_pos hcn] at h
          have h2 : ni = it := by simpa using h
          subst h2
          exact Or.inl ⟨rfl, hcn.1, hcn.2⟩
        · rw [if_neg hcn] at h
          simp only [] at h
          exact Or.inr (pcache_probe_spec c now s it h)

/-- C1 witness: with the concrete masking cache, the stale-within-window
negative item is returned by the negative-first rule. -/
theorem getEarly_negative_first_witness :
    cacheMaskEx.ncache (reqKey reqEx) = some itemNegEx ∧
    getEarly cacheMaskEx 100 reqEx = some itemNegEx :=
  ⟨by decide,
    (getEarly_negative_first cacheMaskEx 100 reqEx).1 itemNegEx (by decide) (by decide)
      (by decide)⟩

/-- C4: the cache key is a pure deterministic function of exactly the
case-normalized query name, the query type, the DO bit and the CD bit:
keys are equal exactly when the four-tuples are equal (so changing any
one of the four fields changes the key), and varying only the
authoritative-answer flag or any other header bit yields the same key and
hits the same cache entry in getEarly. -/
theorem key_four_tuple (s1 s2 : Req) :
    (reqKey s1 = reqKey s2 ↔
      (reqName s1 = reqName s2 ∧ s1.qtype = s2.qtype ∧
        s1.dobit = s2.dobit ∧ s1.cd = s2.cd)) ∧
    (∀ (b1 b2 b3 : Bool) (ip2 : String) (c : Cache) (now : Int),
      reqKey { s1 with aa := b1, ad := b2, ra := b3, ip := ip2 } = reqKey s1 ∧
      getEarly c now { s1 with aa := b1, ad := b2, ra := b3, ip := ip2 } =
        getEarly c now s1) := by
  constructor
  · simp [reqKey, hash, CacheKey.mk.injEq]
  · intro b1 b2 b3 ip2 c now
    exact ⟨rfl, rfl⟩

end K8sCache
